import Mathlib

/-!
Verification of the pg-migrations reconciliation engine.

The development shallowly embeds the TypeScript sources:
  * `src/fs/fsClient.ts`            — script locator (`createMigrationItem`);
  * the `DatabaseClient` module     — persistence gateway (`execute`,
    `executeInTransaction`);
  * `src/migration/pgMigrationClient.ts` — strict reconciliation engine
    (`startMigration`, `getMigrationsScripts`, `doMigration`,
    `executeMigrationScript`, `addMigrationEntry`, `updateScriptHash`,
    `getPersistedMigrations`).

JavaScript numbers coming out of `Number.parseInt` are modelled as
`Option Int`, with `none` standing for `NaN`.  An async function that can
throw is modelled as returning `Except String _`, the `.error` case being a
raised exception; database error values are identified with their `message`
string.  Database side effects on the `migrations` tracking table are
modelled with an explicit `DbState`, and the outcomes of the external
database calls (the scripts themselves, the history INSERT and the hash
UPDATE) are supplied by an oracle `Env`, since they depend on the real
database.  All strings are kept verbatim from the source except that the
single quotes around interpolated filenames are elided.
-/

namespace PgMigrations

/-! ## JavaScript number semantics (`Option Int`, `none` = NaN) -/

/-- JS subtraction `a - b`: `NaN` propagates. -/
def jsSub : Option Int → Option Int → Option Int
  | some a, some b => some (a - b)
  | _, _ => none

/-- JS test `v !== 1`.  Note `NaN !== 1` is `true`. -/
def jsNeOne : Option Int → Bool
  | some v => v != 1
  | none => true

/-- JS `v + 1` (used in the `expected ID=` message interpolation). -/
def jsAddOne : Option Int → Option Int
  | some v => some (v + 1)
  | none => none

/-- Rendering of a JS number in a template literal. -/
def jsNumStr : Option Int → String
  | some v => toString v
  | none => "NaN"

/-- Digits of a decimal literal folded to a natural number. -/
def digitsVal (ds : List Char) : Nat :=
  ds.foldl (fun a c => a * 10 + (c.toNat - 48)) 0

/-- JS `Number.parseInt(s)` (radix omitted): it scans an optional sign and
then the longest run of leading decimal digits, yielding `NaN` (here
`none`) when there are no digits.  It never throws.  Leading-whitespace
skipping and the hexadecimal `0x` form, irrelevant to filename prefixes,
are not modelled. -/
def parseIntJS (s : String) : Option Int :=
  let core : List Char → Int → Option Int := fun cs sign =>
    let ds := cs.takeWhile Char.isDigit
    if ds.isEmpty then none else some (sign * (digitsVal ds : Int))
  match s.toList with
  | '-' :: rest => core rest (-1)
  | '+' :: rest => core rest 1
  | cs => core cs 1

/-! ## Script locator (`src/fs/fsClient.ts`) -/

/-- A `MigrationItem` as produced by `FsClient.createMigrationItem`.  The
`id` field is a JS number, so it may be `NaN` (`none`). -/
structure MigrationItem where
  id : Option Int
  filename : String
  data : String
  hash : String
  deriving Repr, DecidableEq

/-- JS `filename.search(/[_-]/)`: index of the first `_` or `-`, `-1` when
there is none. -/
def searchDelim (s : String) : Int :=
  match s.toList.findIdx? (fun c => c == '_' || c == '-') with
  | none => -1
  | some i => Int.ofNat i

/-- `FsClient.createMigrationItem`, parametrised by the file reader and the
md5 digest (`crypto.createHash("md5").update(filename).update(data)`),
which are external.  `Number.parseInt` never throws in JavaScript — a
non-numeric prefix yields `NaN` — so the `catch` branch carrying the
`Can not parse ID` message in the source is unreachable and the function
returns a `MigrationItem` whose `id` is `NaN`. -/
def createMigrationItem (readFile : String → String)
    (digest : String → String → String) (filename : String) :
    Except String MigrationItem :=
  let delimiterIndex := searchDelim filename
  if delimiterIndex < 1 then
    .error "Filename pattern invalid. Can not find delimiter _ or -. Pattern <id><delimiter><filename>.sql"
  else
    let idValue := filename.take delimiterIndex.toNat
    let id := parseIntJS idValue
    let data := readFile filename
    .ok { id, filename, data, hash := digest filename data }

/-- The error message of the dead `catch` branch of
`createMigrationItem`. -/
def cannotParseIdMsg (idValue : String) : String :=
  "Filename pattern invalid. Can not parse ID. Expected number but got "
    ++ idValue ++ ". Pattern <id><delimiter><filename>.sql"

/-! ## Persistence gateway (`DatabaseClient`) -/

/-- The `ExecutionResult` interface of `src/database/types.ts` (the rows of
a successful query are not needed by the engine model). -/
structure ExecutionResult where
  isSuccess : Bool
  error : Option String
  deriving Repr, DecidableEq

/-- `toSuccess` of `DatabaseClient`. -/
def toSuccess : ExecutionResult := { isSuccess := true, error := none }

/-- `toError` of `DatabaseClient`. -/
def toError (message : String) : ExecutionResult :=
  { isSuccess := false, error := some message }

/-- Outcomes of the five external database interactions performed by one
`executeInTransaction` call: `pool.connect()`, `START TRANSACTION`, the
statement itself, `COMMIT` and `ROLLBACK`.  `Except.error m` means the
underlying driver call rejected with an error whose message is `m`. -/
structure TxEnv where
  connect : Except String Unit
  beginTx : Except String Unit
  runStmt : Except String Unit
  commitTx : Except String Unit
  rollbackTx : Except String Unit
  deriving Repr

/-- `DatabaseClient.execute`: the whole body sits inside `try/catch`, so
every driver rejection becomes the failure variant and the call itself
never raises (hence the plain, non-`Except` return type). -/
def dbExecute (query : Except String Unit) : ExecutionResult :=
  match query with
  | .ok _ => toSuccess
  | .error e => toError e

/-- `DatabaseClient.executeInTransaction`.  `pool.connect()` is evaluated
before the `try`, so a connect rejection raises to the caller.  Inside the
`try`, a failure of BEGIN, of the statement or of COMMIT reaches the
`catch`, which awaits `ROLLBACK`: when the rollback succeeds the failure
variant is returned, but when the rollback itself rejects, that exception
propagates out of the `catch` (the `finally` only releases the client,
modelled as non-failing). -/
def dbExecuteInTransaction (env : TxEnv) : Except String ExecutionResult :=
  match env.connect with
  | .error e => .error e
  | .ok _ =>
    let body : Except String Unit :=
      match env.beginTx with
      | .error e => .error e
      | .ok _ =>
        match env.runStmt with
        | .error e => .error e
        | .ok _ => env.commitTx
    match body with
    | .ok _ => .ok toSuccess
    | .error e =>
      match env.rollbackTx with
      | .ok _ => .ok (toError e)
      | .error e2 => .error e2

/-- A transaction environment in which the statement fails and the
subsequent `ROLLBACK` also fails. -/
def rollbackFailEnv : TxEnv :=
  { connect := .ok (), beginTx := .ok (), runStmt := .error "boom",
    commitTx := .ok (), rollbackTx := .error "rollback failed" }

/-! ## Stable comparator sort (`Array.prototype.sort`)

JavaScript array sort is stable (ES2019) and is driven by a comparator; a
comparator value that is `NaN` or `0` leaves the relative order unchanged.
We model it as a stable insertion sort over the Boolean relation
`le a b` = "the comparator does not require `a` after `b`". -/

/-- Insert `x` before the first element `y` with `le x y`. -/
def insertBy (le : α → α → Bool) (x : α) : List α → List α
  | [] => [x]
  | y :: ys => if le x y then x :: y :: ys else y :: insertBy le x ys

/-- Stable insertion sort by a Boolean comparator relation. -/
def sortBy (le : α → α → Bool) : List α → List α
  | [] => []
  | x :: xs => insertBy le x (sortBy le xs)

/-! ## Reconciliation engine (`src/migration/pgMigrationClient.ts`) -/

/-- A persisted row of the `migrations` tracking table, as read back by
`SELECT * FROM migrations ORDER BY id` (the `timestamp` column is never
inspected by the engine and is omitted).  `hash` is nullable: legacy rows
and the sentinel row have `hash = none`. -/
structure MigrationEntry where
  id : Int
  filename : String
  hash : Option String
  deriving Repr, DecidableEq

/-- The state of the `migrations` table: its rows and the next value of
the `BIGSERIAL` id sequence. -/
structure DbState where
  entries : List MigrationEntry
  nextId : Int
  deriving Repr, DecidableEq

/-- Which gateway call executed a script body (§4.5 execution policy). -/
inductive ExecPath where
  | autocommit
  | transactional
  deriving Repr, DecidableEq

/-- A record that the engine invoked the persistence gateway on a script
body, and through which path. -/
structure ExecEvent where
  filename : String
  path : ExecPath
  deriving Repr, DecidableEq

/-- Oracle for the outcomes of the external database calls made during a
run: the result of executing a script body (keyed by the statement text),
and whether the history INSERT and the hash-backfill UPDATE succeed (keyed
by the filename parameter).  The engine discards the results of the INSERT
and UPDATE calls, which is why plain `Bool`s suffice for them. -/
structure Env where
  scriptResult : String → ExecutionResult
  insertOk : String → Bool
  updateOk : String → Bool

/-- The outcome of a (sub)run: the resulting table state, the gateway
invocations performed on script bodies in order, and `err = some m` when
an exception with message `m` propagated (to be caught and logged by
`startMigration`). -/
structure RunResult where
  db : DbState
  trace : List ExecEvent
  err : Option String
  deriving Repr, DecidableEq

/-- Effect of `INSERT INTO migrations (filename, hash) VALUES ($1, $2)`:
a fresh serial id is assigned and the row appended. -/
def insertRecord (db : DbState) (filename hash : String) : DbState :=
  { entries := db.entries ++ [{ id := db.nextId, filename, hash := some hash }],
    nextId := db.nextId + 1 }

/-- Effect of `UPDATE migrations SET hash = $1 WHERE filename = $2`. -/
def updateHashRow (db : DbState) (filename newHash : String) : DbState :=
  { db with
    entries := db.entries.map fun e =>
      if e.filename == filename then { e with hash := some newHash } else e }

/-- Comparator relation of `migrationScripts.sort((l, r) => l.id - r.id)`:
`a` need not come after `b` when the comparator value `a.id - b.id` is not
positive; a `NaN` comparator value counts as zero. -/
def scriptLe (a b : MigrationItem) : Bool :=
  match jsSub a.id b.id with
  | some d => d ≤ 0
  | none => true

/-- `ORDER BY id` on the tracking table. -/
def entryLe (a b : MigrationEntry) : Bool := a.id ≤ b.id

/-- Rows returned by `getPersistedMigrations` (the SELECT is assumed to
succeed; a failed SELECT would abort the run before any other action and
is not needed by any claim). -/
def getPersistedMigrations (db : DbState) : List MigrationEntry :=
  sortBy entryLe db.entries

/-- The SequenceGap message of `getMigrationsScripts`. -/
def seqGapMsg (filename : String) : String :=
  "Invalid script IDs sequence for filename " ++ filename

/-- The walk of `getMigrationsScripts` over the sorted scripts: `curr` is
the mutable `currentId`, `none` while still `undefined` (the JS guard
`currentId != null` is false only for `undefined`; a `NaN` value passes
it).  Returns the message of the thrown error, if any. -/
def checkSeqFrom : Option (Option Int) → List MigrationItem → Option String
  | _, [] => none
  | none, s :: rest => checkSeqFrom (some s.id) rest
  | some c, s :: rest =>
    if jsNeOne (jsSub s.id c) then some (seqGapMsg s.filename)
    else checkSeqFrom (some s.id) rest

/-- `getMigrationsScripts`, starting from the discovered items (the
`fsClient.findMigrationScripts` output): sort ascending by id, then
validate that consecutive ids differ by exactly one. -/
def getMigrationsScripts (raw : List MigrationItem) :
    Except String (List MigrationItem) :=
  let sorted := sortBy scriptLe raw
  match checkSeqFrom none sorted with
  | some msg => .error msg
  | none => .ok sorted

/-- The expected gateway invocation for a script, per the §4.5 policy. -/
def evOf (s : MigrationItem) : ExecEvent :=
  { filename := s.filename,
    path := if s.data.startsWith "--AUTOCOMMIT" then .autocommit
            else .transactional }

/-- `executeMigrationScript` together with the inlined
`addMigrationEntry`: the script body is executed through `execute` when it
starts with the `--AUTOCOMMIT` marker and through `executeInTransaction`
otherwise (the outcome coming from the oracle either way); when the
gateway reports success, the history INSERT is issued and its result is
discarded; when it reports failure, `addMigrationEntry` throws
`new Error(migrationResult.error)`.  Returns the new table state, the
gateway invocation performed, and the propagated exception, if any. -/
def executeMigrationScript (env : Env) (s : MigrationItem) (db : DbState) :
    DbState × ExecEvent × Option String :=
  let migrationResult := env.scriptResult s.data
  if migrationResult.isSuccess then
    let db2 := if env.insertOk s.filename then insertRecord db s.filename s.hash
               else db
    (db2, evOf s, none)
  else
    (db, evOf s, some (migrationResult.error.getD ""))

/-- The `validateScriptId` message. -/
def invalidIdMsg (filename : String) (lastId : Option Int) : String :=
  "Invalid script ID for filename " ++ filename ++ ", expected ID="
    ++ jsNumStr (jsAddOne lastId)

/-- The `updateScriptHash` ImmutableScriptModified message (single quotes
around the filename elided). -/
def immutableMsg (filename : String) : String :=
  "For migration script " ++ filename ++ " was modify that not allowed"

/-- The loop body of `doMigration` over the sorted scripts.  `snapshot` is
the list of persisted rows read once at the start of the run (later
INSERTs are not re-read), `lastId` the mutable `lastMigrationEntryId` (a
JS number: it starts as the id of the last persisted row and is assigned
`migrationScript.id` after each applied script). -/
def doMigrationLoop (env : Env) (snapshot : List MigrationEntry) :
    List MigrationItem → Option Int → DbState → List ExecEvent → RunResult
  | [], _, db, tr => { db, trace := tr, err := none }
  | s :: rest, lastId, db, tr =>
    match snapshot.find? (fun e => e.filename == s.filename) with
    | none =>
      if jsNeOne (jsSub s.id lastId) then
        { db, trace := tr, err := some (invalidIdMsg s.filename lastId) }
      else
        match executeMigrationScript env s db with
        | (db2, ev, none) =>
          doMigrationLoop env snapshot rest s.id db2 (tr ++ [ev])
        | (db2, ev, some e) =>
          { db := db2, trace := tr ++ [ev], err := some e }
    | some entry =>
      match entry.hash with
      | none =>
        let db2 := if env.updateOk s.filename
                   then updateHashRow db s.filename s.hash else db
        doMigrationLoop env snapshot rest lastId db2 tr
      | some h =>
        if h != s.hash then
          { db, trace := tr, err := some (immutableMsg s.filename) }
        else
          doMigrationLoop env snapshot rest lastId db tr

/-- The message of the TypeError thrown by
`migrationEntries[migrationEntries.length - 1].id` on an empty history
(apostrophes of the V8 wording elided). -/
def emptyHistoryMsg : String :=
  "TypeError: Cannot read properties of undefined (reading id)"

/-- `doMigration`: read the persisted rows, take the id of the last one —
with no emptiness guard, so an empty history throws a TypeError — and walk
the scripts. -/
def doMigration (env : Env) (scripts : List MigrationItem) (db : DbState) :
    RunResult :=
  let migrationEntries := getPersistedMigrations db
  match migrationEntries.getLast? with
  | none => { db, trace := [], err := some emptyHistoryMsg }
  | some lastEntry =>
    doMigrationLoop env migrationEntries scripts (some lastEntry.id) db []

/-- The `checkClientInitialisation` message. -/
def notReadyMsg : String := "PgMigrationClient should be initialized before use"

/-- `startMigration`: guard on the readiness flag, discover and validate
the scripts, skip the migration when none were found, and catch any thrown
error at the top (the caught message is reported in `err`; nothing is
re-raised to the caller). -/
def startMigration (env : Env) (ready : Bool) (raw : List MigrationItem)
    (db : DbState) : RunResult :=
  if !ready then { db, trace := [], err := some notReadyMsg }
  else
    match getMigrationsScripts raw with
    | .error msg => { db, trace := [], err := some msg }
    | .ok scripts =>
      if scripts.isEmpty then { db, trace := [], err := none }
      else doMigration env scripts db

/-! ## Specification-side vocabulary used to state the claims -/

/-- The scripts carry the contiguous ids `n+1, n+2, ...` in list order. -/
def consecIds : Int → List MigrationItem → Prop
  | _, [] => True
  | n, s :: rest => s.id = some (n + 1) ∧ consecIds (n + 1) rest

/-- The rows a fresh run inserts for the given scripts, with serial ids
starting at `n`. -/
def mkRecords : Int → List MigrationItem → List MigrationEntry
  | _, [] => []
  | n, s :: rest =>
    { id := n, filename := s.filename, hash := some s.hash }
      :: mkRecords (n + 1) rest

/-! ## Concrete fixtures for the closed instances -/

/-- An oracle under which every database call succeeds. -/
def envAllOk : Env :=
  { scriptResult := fun _ => toSuccess,
    insertOk := fun _ => true, updateOk := fun _ => true }

/-- Fixture script `1_init.sql`. -/
def fix1 : MigrationItem :=
  { id := some 1, filename := "1_init.sql", data := "CREATE TABLE t (a INT);",
    hash := "h1" }

/-- Fixture script `2_add_col.sql`, marked non-transactional. -/
def fix2 : MigrationItem :=
  { id := some 2, filename := "2_add_col.sql",
    data := "--AUTOCOMMIT CREATE INDEX CONCURRENTLY i ON t (a);",
    hash := "h2" }

/-- Fixture script `4_gap.sql`, breaking contiguity after id 2. -/
def fix4 : MigrationItem :=
  { id := some 4, filename := "4_gap.sql", data := "ALTER TABLE t;",
    hash := "h4" }

/-- The sentinel row inserted by `init`. -/
def sentinel : MigrationEntry :=
  { id := 0, filename := "PgMigrationClient initialized", hash := none }

/-- A history holding only the sentinel. -/
def freshDb : DbState := { entries := [sentinel], nextId := 1 }

/-- The persisted record of `fix1`. -/
def rec1 : MigrationEntry :=
  { id := 1, filename := "1_init.sql", hash := some "h1" }

/-- The persisted record of `fix2`. -/
def rec2 : MigrationEntry :=
  { id := 2, filename := "2_add_col.sql", hash := some "h2" }

/-- A legacy record of `fix1` with a null fingerprint. -/
def rec1null : MigrationEntry :=
  { id := 1, filename := "1_init.sql", hash := none }

/-- The history left by a completed run of `fix1` and `fix2`. -/
def doneDb : DbState := { entries := [sentinel, rec1, rec2], nextId := 3 }

/-- Fixture `1_init.sql` after an on-disk edit: same filename, changed
fingerprint. -/
def fix1edit : MigrationItem :=
  { id := some 1, filename := "1_init.sql",
    data := "CREATE TABLE t (a INT, b INT);", hash := "h1edit" }

/-- An oracle under which scripts succeed but the history INSERT fails. -/
def envNoInsert : Env :=
  { scriptResult := fun _ => toSuccess,
    insertOk := fun _ => false, updateOk := fun _ => true }

/-- The item the script locator actually produces for `x_foo.sql` (with
the fixture reader returning `SELECT 1;` and the digest modelled by
concatenation): its `id` is `NaN`. -/
def nanItem : MigrationItem :=
  { id := none, filename := "x_foo.sql", data := "SELECT 1;",
    hash := "x_foo.sqlSELECT 1;" }

/-! ## Helper lemmas -/

theorem length_insertBy (le : α → α → Bool) (x : α) :
    ∀ l : List α, (insertBy le x l).length = l.length + 1 := by
  intro l
  induction l with
  | nil => rfl
  | cons y ys ih =>
    by_cases h : le x y = true
    · simp [insertBy, h]
    · simp [insertBy, h, ih]

theorem length_sortBy (le : α → α → Bool) :
    ∀ l : List α, (sortBy le l).length = l.length := by
  intro l
  induction l with
  | nil => rfl
  | cons x xs ih => simp [sortBy, length_insertBy, ih]

theorem getLast?_of_ne_nil {l : List α} (h : l ≠ []) :
    ∃ a, l.getLast? = some a := by
  induction l with
  | nil => exact absurd rfl h
  | cons x xs ih =>
    cases xs with
    | nil => exact ⟨x, rfl⟩
    | cons y ys =>
      obtain ⟨a, ha⟩ := ih (by simp)
      exact ⟨a, by rw [List.getLast?_cons_cons]; exact ha⟩

theorem length_mkRecords : ∀ (n : Int) (l : List MigrationItem),
    (mkRecords n l).length = l.length := by
  intro n l
  induction l generalizing n with
  | nil => rfl
  | cons s rest ih => simp [mkRecords, ih]

theorem sortBy_of_consec : ∀ (n : Int) (l : List MigrationItem),
    consecIds n l → sortBy scriptLe l = l := by
  intro n l
  induction l generalizing n with
  | nil => intro; rfl
  | cons s rest ih =>
    rintro ⟨hid, hrest⟩
    rw [sortBy, ih (n + 1) hrest]
    cases rest with
    | nil => rfl
    | cons t ts =>
      obtain ⟨htid, _⟩ := hrest
      have hle : scriptLe s t = true := by
        simp [scriptLe, jsSub, hid, htid]
      simp [insertBy, hle]

theorem checkSeqFrom_of_consec : ∀ (n : Int) (l : List MigrationItem),
    consecIds n l → checkSeqFrom (some (some n)) l = none := by
  intro n l
  induction l generalizing n with
  | nil => intro; rfl
  | cons s rest ih =>
    rintro ⟨hid, hrest⟩
    have hbad : jsNeOne (jsSub s.id (some n)) = false := by
      simp [jsSub, hid, jsNeOne]
    rw [checkSeqFrom, hbad]
    simp only [Bool.false_eq_true, if_false, hid]
    exact ih (n + 1) hrest

theorem getMigrationsScripts_of_consec (n : Int) (l : List MigrationItem)
    (h : consecIds n l) : getMigrationsScripts l = .ok l := by
  rw [getMigrationsScripts, sortBy_of_consec n l h]
  cases l with
  | nil => rfl
  | cons s rest =>
    obtain ⟨hid, hrest⟩ := h
    have hchk : checkSeqFrom none (s :: rest) = none := by
      rw [checkSeqFrom, hid]
      exact checkSeqFrom_of_consec (n + 1) rest hrest
    simp [hchk]

theorem doMigrationLoop_all_new (env : Env) (snapshot : List MigrationEntry) :
    ∀ (scripts : List MigrationItem) (n : Int) (db : DbState)
      (tr : List ExecEvent),
    consecIds n scripts →
    (∀ s ∈ scripts,
        snapshot.find? (fun e => e.filename == s.filename) = none) →
    (∀ s ∈ scripts, (env.scriptResult s.data).isSuccess = true) →
    (∀ s ∈ scripts, env.insertOk s.filename = true) →
    doMigrationLoop env snapshot scripts (some n) db tr =
      { db := { entries := db.entries ++ mkRecords db.nextId scripts,
                nextId := db.nextId + (scripts.length : Int) },
        trace := tr ++ scripts.map evOf, err := none } := by
  intro scripts
  induction scripts with
  | nil => intro n db tr _ _ _ _; simp [doMigrationLoop, mkRecords]
  | cons s rest ih =>
    rintro n db tr ⟨hid, hrest⟩ hfind hok hins
    have hbad : jsNeOne (jsSub s.id (some n)) = false := by
      simp [jsSub, hid, jsNeOne]
    have hexec : executeMigrationScript env s db =
        (insertRecord db s.filename s.hash, evOf s, none) := by
      simp [executeMigrationScript, hok s (by simp), hins s (by simp)]
    rw [doMigrationLoop, hfind s (by simp), hbad]
    simp only [Bool.false_eq_true, if_false, hexec, hid]
    rw [ih (n + 1) (insertRecord db s.filename s.hash) (tr ++ [evOf s]) hrest
      (fun t ht => hfind t (by simp [ht])) (fun t ht => hok t (by simp [ht]))
      (fun t ht => hins t (by simp [ht]))]
    simp only [insertRecord, mkRecords, List.append_assoc,
      List.singleton_append, List.map_cons, List.length_cons,
      RunResult.mk.injEq, DbState.mk.injEq, and_true, true_and]
    push_cast
    ring

theorem doMigrationLoop_all_matched (env : Env)
    (snapshot : List MigrationEntry) :
    ∀ (scripts : List MigrationItem) (lastId : Option Int) (db : DbState)
      (tr : List ExecEvent),
    (∀ s ∈ scripts, ∃ e,
        snapshot.find? (fun x => x.filename == s.filename) = some e ∧
        e.hash = some s.hash) →
    doMigrationLoop env snapshot scripts lastId db tr =
      { db, trace := tr, err := none } := by
  intro scripts
  induction scripts with
  | nil => intro lastId db tr _; rfl
  | cons s rest ih =>
    intro lastId db tr hmatch
    obtain ⟨e, hfind, hhash⟩ := hmatch s (by simp)
    rw [doMigrationLoop, hfind]
    simp only [hhash, bne_self_eq_false, Bool.false_eq_true, if_false]
    exact ih lastId db tr (fun t ht => hmatch t (by simp [ht]))

theorem checkSeqFrom_break :
    ∀ (pre : List MigrationItem) (curr : Option (Option Int))
      (a b : MigrationItem) (post : List MigrationItem),
    jsNeOne (jsSub b.id a.id) = true →
    ∃ f, f ∈ (pre ++ a :: b :: post).map (fun s => s.filename) ∧
      checkSeqFrom curr (pre ++ a :: b :: post) = some (seqGapMsg f) := by
  intro pre
  induction pre with
  | nil =>
    intro curr a b post hgap
    have hstep : checkSeqFrom (some a.id) (b :: post) =
        some (seqGapMsg b.filename) := by
      rw [checkSeqFrom, hgap]
      simp
    cases curr with
    | none =>
      refine ⟨b.filename, by simp, ?_⟩
      rw [List.nil_append, checkSeqFrom]
      exact hstep
    | some c =>
      cases hfirst : jsNeOne (jsSub a.id c) with
      | true =>
        refine ⟨a.filename, by simp, ?_⟩
        rw [List.nil_append, checkSeqFrom, hfirst]
        simp
      | false =>
        refine ⟨b.filename, by simp, ?_⟩
        rw [List.nil_append, checkSeqFrom, hfirst]
        simpa using hstep
  | cons p pre' ih =>
    intro curr a b post hgap
    obtain ⟨f, hf, hcheck⟩ := ih (some p.id) a b post hgap
    cases curr with
    | none =>
      refine ⟨f, by simpa using Or.inr hf, ?_⟩
      rw [List.cons_append, checkSeqFrom]
      exact hcheck
    | some c =>
      cases hbad : jsNeOne (jsSub p.id c) with
      | true =>
        refine ⟨p.filename, by simp, ?_⟩
        rw [List.cons_append, checkSeqFrom, hbad]
        simp
      | false =>
        refine ⟨f, by simpa using Or.inr hf, ?_⟩
        rw [List.cons_append, checkSeqFrom, hbad]
        simpa using hcheck

/-! ## Claims -/

/-- C4 counterexample: the claim that `execute` and `executeInTransaction`
never raise — in particular that errors raised during the transaction
rollback itself are captured as the failure variant — is false: when the
statement fails and the subsequent `ROLLBACK` also fails, the rollback
error escapes `executeInTransaction` as a raised exception. -/
theorem executeInTransaction_raises_on_rollback_failure :
    dbExecuteInTransaction rollbackFailEnv = .error "rollback failed" := rfl

/-- C4 (amended): `execute` never raises and converts every database error
to the failure variant.  `executeInTransaction` raises when and only when
`pool.connect()` fails — that failure is re-raised verbatim, since the
connect sits before the `try` — or when the `ROLLBACK` issued after an
error itself fails; when the connect and the rollback succeed, an error of
BEGIN, of the statement or of COMMIT is returned as the failure variant
carrying that error message, never re-raised. -/
theorem gateway_error_capture_scope (env : TxEnv) (m : String) :
    dbExecute (.error m) = toError m ∧
    dbExecute (.ok ()) = toSuccess ∧
    (∀ e, env.connect = .error e → dbExecuteInTransaction env = .error e) ∧
    (∀ e, env.connect = .ok () → env.rollbackTx = .ok () →
      (env.beginTx = .error e ∨
       (env.beginTx = .ok () ∧ env.runStmt = .error e) ∨
       (env.beginTx = .ok () ∧ env.runStmt = .ok () ∧
        env.commitTx = .error e)) →
      dbExecuteInTransaction env = .ok (toError e)) ∧
    (∀ e, dbExecuteInTransaction env = .error e →
      env.connect = .error e ∨ env.rollbackTx = .error e) := by
  refine ⟨rfl, rfl, ?_, ?_, ?_⟩
  · intro e hc
    simp [dbExecuteInTransaction, hc]
  · rintro e hc hr (hb | ⟨hb, hs⟩ | ⟨hb, hs, hk⟩)
    · simp [dbExecuteInTransaction, hc, hb, hr]
    · simp [dbExecuteInTransaction, hc, hb, hs, hr]
    · simp [dbExecuteInTransaction, hc, hb, hs, hk, hr]
  · intro e herr
    rcases hc : env.connect with ce | cu
    · obtain rfl : ce = e := by
        simpa [dbExecuteInTransaction, hc] using herr
      exact Or.inl rfl
    · rcases hb : env.beginTx with be | bu
      · rcases hr : env.rollbackTx with re | ru
        · obtain rfl : re = e := by
            simpa [dbExecuteInTransaction, hc, hb, hr] using herr
          exact Or.inr rfl
        · exact absurd herr
            (by simp [dbExecuteInTransaction, hc, hb, hr])
      · rcases hs : env.runStmt with se | su
        · rcases hr : env.rollbackTx with re | ru
          · obtain rfl : re = e := by
              simpa [dbExecuteInTransaction, hc, hb, hs, hr] using herr
            exact Or.inr rfl
          · exact absurd herr
              (by simp [dbExecuteInTransaction, hc, hb, hs, hr])
        · rcases hk : env.commitTx with ke | ku
          · rcases hr : env.rollbackTx with re | ru
            · obtain rfl : re = e := by
                simpa [dbExecuteInTransaction, hc, hb, hs, hk, hr]
                  using herr
              exact Or.inr rfl
            · exact absurd herr
                (by simp [dbExecuteInTransaction, hc, hb, hs, hk, hr])
          · exact absurd herr
              (by simp [dbExecuteInTransaction, hc, hb, hs, hk])

/-- C5: the spec demands that a filename whose prefix before the delimiter
does not parse as a non-negative integer fail discovery with the distinct
`Can not parse ID` message, and the source carries exactly that message —
but `Number.parseInt` never throws in JavaScript, so the guarding `catch`
is dead code and `createMigrationItem` instead returns a `MigrationItem`
whose `id` is `NaN`.  Evaluated here at the failing input `x_foo.sql`. -/
theorem createMigrationItem_returns_nan_item :
    createMigrationItem (fun _ => "SELECT 1;") (fun a b => a ++ b)
        "x_foo.sql" = .ok nanItem ∧
    nanItem.id = none ∧
    (Except.ok nanItem ≠
      (.error (cannotParseIdMsg "x") : Except String MigrationItem)) := by
  refine ⟨rfl, rfl, fun h => Except.noConfusion h⟩

/-- C2: from any run state in which the next script has a persisted record
with the same filename whose non-null fingerprint differs from the
fingerprint of the script, the run fails fatally with the
ImmutableScriptModified error naming that filename; the table state is
left untouched and no later script is executed or recorded. -/
theorem run_aborts_on_modified_script (env : Env)
    (snapshot : List MigrationEntry) (s : MigrationItem)
    (post : List MigrationItem) (lastId : Option Int) (db : DbState)
    (tr : List ExecEvent) (e : MigrationEntry) (h : String)
    (hfind : snapshot.find? (fun x => x.filename == s.filename) = some e)
    (hhash : e.hash = some h) (hne : h ≠ s.hash) :
    doMigrationLoop env snapshot (s :: post) lastId db tr =
      { db, trace := tr, err := some (immutableMsg s.filename) } := by
  have hbne : (h != s.hash) = true := bne_iff_ne.mpr hne
  simp [doMigrationLoop, hfind, hhash, hbne]

/-- C2 witness at a concrete edited script. -/
theorem run_aborts_on_modified_script_witness :
    ([rec1].find? (fun x => x.filename == fix1edit.filename) = some rec1) ∧
    rec1.hash = some "h1" ∧ "h1" ≠ fix1edit.hash ∧
    doMigrationLoop envAllOk [rec1] (fix1edit :: [fix2]) (some 0)
        freshDb [] =
      { db := freshDb, trace := [],
        err := some (immutableMsg fix1edit.filename) } := by
  have hfind : [rec1].find? (fun x => x.filename == fix1edit.filename) =
      some rec1 := rfl
  have hh : rec1.hash = some "h1" := rfl
  have hne : "h1" ≠ fix1edit.hash := by decide
  exact ⟨hfind, hh, hne,
    run_aborts_on_modified_script envAllOk [rec1] fix1edit [fix2] (some 0)
      freshDb [] rec1 "h1" hfind hh hne⟩

/-- C6: from any run state in which the next script has a persisted record
with the same filename and a null fingerprint, the engine backfills the
fingerprint of that record in place to the current script fingerprint through
the UPDATE statement, executes no script body for it, and continues with
the remaining scripts. -/
theorem legacy_null_fingerprint_backfilled (env : Env)
    (snapshot : List MigrationEntry) (s : MigrationItem)
    (post : List MigrationItem) (lastId : Option Int) (db : DbState)
    (tr : List ExecEvent) (e : MigrationEntry)
    (hfind : snapshot.find? (fun x => x.filename == s.filename) = some e)
    (hhash : e.hash = none)
    (hupd : env.updateOk s.filename = true) :
    doMigrationLoop env snapshot (s :: post) lastId db tr =
      doMigrationLoop env snapshot post lastId
        (updateHashRow db s.filename s.hash) tr ∧
    (updateHashRow db s.filename s.hash).entries =
      db.entries.map (fun r =>
        if r.filename == s.filename then { r with hash := some s.hash }
        else r) := by
  refine ⟨?_, rfl⟩
  simp [doMigrationLoop, hfind, hhash, hupd]

/-- C6 witness at a concrete legacy record. -/
theorem legacy_null_fingerprint_backfilled_witness :
    ([rec1null].find? (fun x => x.filename == fix1.filename) =
      some rec1null) ∧
    rec1null.hash = none ∧ envAllOk.updateOk fix1.filename = true ∧
    doMigrationLoop envAllOk [rec1null] (fix1 :: []) (some 1)
        { entries := [rec1null], nextId := 2 } [] =
      doMigrationLoop envAllOk [rec1null] [] (some 1)
        (updateHashRow { entries := [rec1null], nextId := 2 }
          fix1.filename fix1.hash) [] := by
  have hfind : [rec1null].find? (fun x => x.filename == fix1.filename) =
      some rec1null := rfl
  have hh : rec1null.hash = none := rfl
  have hupd : envAllOk.updateOk fix1.filename = true := rfl
  exact ⟨hfind, hh, hupd,
    (legacy_null_fingerprint_backfilled envAllOk [rec1null] fix1 []
      (some 1) { entries := [rec1null], nextId := 2 } [] rec1null
      hfind hh hupd).1⟩

/-- C7: a script whose body starts with the `--AUTOCOMMIT` marker is
executed through the bare `execute` path and all others through
`executeInTransaction`; the MigrationRecord INSERT is issued exactly when
the gateway returns its success variant, and the failure variant aborts
the run at that script. -/
theorem script_execution_policy (env : Env) (s : MigrationItem)
    (db : DbState) (snapshot : List MigrationEntry)
    (post : List MigrationItem) (lastId : Option Int) (tr : List ExecEvent)
    (hins : env.insertOk s.filename = true)
    (hfind : snapshot.find? (fun x => x.filename == s.filename) = none)
    (hid : jsSub s.id lastId = some 1) :
    (executeMigrationScript env s db).2.1 = evOf s ∧
    ((evOf s).path = if s.data.startsWith "--AUTOCOMMIT"
        then ExecPath.autocommit else ExecPath.transactional) ∧
    ((env.scriptResult s.data).isSuccess = true →
      executeMigrationScript env s db =
        (insertRecord db s.filename s.hash, evOf s, none)) ∧
    ((env.scriptResult s.data).isSuccess = false →
      doMigrationLoop env snapshot (s :: post) lastId db tr =
        { db, trace := tr ++ [evOf s],
          err := some ((env.scriptResult s.data).error.getD "") }) := by
  refine ⟨?_, by rw [evOf], ?_, ?_⟩
  · rw [executeMigrationScript]
    cases (env.scriptResult s.data).isSuccess <;> simp
  · intro hsucc
    simp [executeMigrationScript, hsucc, hins]
  · intro hfail
    have hone : jsNeOne (jsSub s.id lastId) = false := by
      rw [hid]; rfl
    simp [doMigrationLoop, hfind, hone, executeMigrationScript, hfail]

/-- C7 witness at a concrete transactional script with a succeeding
gateway. -/
theorem script_execution_policy_witness :
    envAllOk.insertOk fix1.filename = true ∧
    (List.find? (fun x => x.filename == fix1.filename)
      ([] : List MigrationEntry) = none) ∧
    jsSub fix1.id (some 0) = some 1 ∧
    ((executeMigrationScript envAllOk fix1 freshDb).2.1 = evOf fix1 ∧
     ((evOf fix1).path = if fix1.data.startsWith "--AUTOCOMMIT"
        then ExecPath.autocommit else ExecPath.transactional) ∧
     ((envAllOk.scriptResult fix1.data).isSuccess = true →
       executeMigrationScript envAllOk fix1 freshDb =
         (insertRecord freshDb fix1.filename fix1.hash, evOf fix1, none)) ∧
     ((envAllOk.scriptResult fix1.data).isSuccess = false →
       doMigrationLoop envAllOk [] (fix1 :: []) (some 0) freshDb [] =
         { db := freshDb, trace := [] ++ [evOf fix1],
           err := some ((envAllOk.scriptResult fix1.data).error.getD "") })) := by
  exact ⟨rfl, rfl, rfl,
    script_execution_policy envAllOk fix1 freshDb [] [] (some 0) []
      rfl rfl rfl⟩

/-- C9 (implicit): when a script body executes successfully but the
separate history INSERT fails, the failure variant returned by `execute`
is discarded — the engine records nothing for the script, reports no
error, and proceeds to the remaining scripts, leaving the script applied
but unrecorded. -/
theorem history_insert_failure_ignored (env : Env)
    (snapshot : List MigrationEntry) (s : MigrationItem)
    (post : List MigrationItem) (lastId : Option Int) (db : DbState)
    (tr : List ExecEvent)
    (hfind : snapshot.find? (fun x => x.filename == s.filename) = none)
    (hid : jsSub s.id lastId = some 1)
    (hok : (env.scriptResult s.data).isSuccess = true)
    (hins : env.insertOk s.filename = false) :
    doMigrationLoop env snapshot (s :: post) lastId db tr =
      doMigrationLoop env snapshot post s.id db (tr ++ [evOf s]) := by
  have hone : jsNeOne (jsSub s.id lastId) = false := by
    rw [hid]; rfl
  simp [doMigrationLoop, hfind, hone, executeMigrationScript, hok, hins]

/-- C9 witness: the INSERT for `1_init.sql` fails, yet the loop continues
with the next script and the table is unchanged. -/
theorem history_insert_failure_ignored_witness :
    (List.find? (fun x => x.filename == fix1.filename)
      ([] : List MigrationEntry) = none) ∧
    jsSub fix1.id (some 0) = some 1 ∧
    (envNoInsert.scriptResult fix1.data).isSuccess = true ∧
    envNoInsert.insertOk fix1.filename = false ∧
    doMigrationLoop envNoInsert [] (fix1 :: [fix2]) (some 0) freshDb [] =
      doMigrationLoop envNoInsert [] [fix2] fix1.id freshDb
        ([] ++ [evOf fix1]) := by
  exact ⟨rfl, rfl, rfl, rfl,
    history_insert_failure_ignored envNoInsert [] fix1 [fix2] (some 0)
      freshDb [] rfl rfl rfl rfl⟩

/-- C10 (implicit): `doMigration` reads the id of the last persisted row
with no emptiness guard, so when the persisted history is empty and at
least one script was discovered, the run aborts with a TypeError — caught
at the top of `startMigration` and only logged — before any script is
executed and without touching the table. -/
theorem empty_history_aborts_run (env : Env) (raw scripts : List MigrationItem)
    (db : DbState)
    (hdisc : getMigrationsScripts raw = .ok scripts)
    (hne : scripts ≠ [])
    (hempty : db.entries = []) :
    startMigration env true raw db =
      { db, trace := [], err := some emptyHistoryMsg } := by
  rw [startMigration]
  simp only [Bool.not_true, Bool.false_eq_true, if_false, hdisc]
  cases scripts with
  | nil => exact absurd rfl hne
  | cons s rest =>
    have hsnap : getPersistedMigrations db = [] := by
      rw [getPersistedMigrations, hempty]; rfl
    simp [doMigration, hsnap]

/-- C10 witness: one discovered script against an empty table. -/
theorem empty_history_aborts_run_witness :
    getMigrationsScripts [fix1] = .ok [fix1] ∧
    ([fix1] : List MigrationItem) ≠ [] ∧
    (DbState.mk [] 1).entries = [] ∧
    startMigration envAllOk true [fix1] (DbState.mk [] 1) =
      { db := DbState.mk [] 1, trace := [],
        err := some emptyHistoryMsg } := by
  refine ⟨rfl, by simp, rfl, ?_⟩
  exact empty_history_aborts_run envAllOk [fix1] [fix1] (DbState.mk [] 1)
    rfl (by simp) rfl

/-- C1: against a history holding only the sentinel record (id 0), a run
over scripts with contiguous ids 1..N (listed in ascending id order, which
determines the discovered set) executes all N scripts in ascending id
order — through the gateway, in list order — and inserts one
MigrationRecord per executed script, leaving N+1 persisted records
including the sentinel. -/
theorem fresh_run_applies_all_scripts (env : Env)
    (scripts : List MigrationItem) (sent : MigrationEntry) (n0 : Int)
    (hids : consecIds 0 scripts)
    (hname : ∀ s ∈ scripts, s.filename ≠ sent.filename)
    (hok : ∀ s ∈ scripts, (env.scriptResult s.data).isSuccess = true)
    (hins : ∀ s ∈ scripts, env.insertOk s.filename = true)
    (hsent : sent.id = 0) :
    startMigration env true scripts { entries := [sent], nextId := n0 } =
      { db := { entries := sent :: mkRecords n0 scripts,
                nextId := n0 + (scripts.length : Int) },
        trace := scripts.map evOf, err := none } ∧
    (sent :: mkRecords n0 scripts).length = scripts.length + 1 := by
  constructor
  · rw [startMigration]
    simp only [Bool.not_true, Bool.false_eq_true, if_false,
      getMigrationsScripts_of_consec 0 scripts hids]
    cases scripts with
    | nil => simp [mkRecords]
    | cons s rest =>
      have hsnap : getPersistedMigrations
          { entries := [sent], nextId := n0 } = [sent] := rfl
      have hfind : ∀ t ∈ s :: rest,
          [sent].find? (fun e => e.filename == t.filename) = none := by
        intro t ht
        have hne : (sent.filename == t.filename) = false :=
          beq_eq_false_iff_ne.mpr (Ne.symm (hname t ht))
        simp [List.find?, hne]
      simp only [List.isEmpty_cons, Bool.false_eq_true, if_false,
        doMigration, hsnap, List.getLast?_singleton, hsent]
      rw [doMigrationLoop_all_new env [sent] (s :: rest) 0
        { entries := [sent], nextId := n0 } [] hids hfind hok hins]
      simp
  · simp [length_mkRecords]

/-- C1 witness: two scripts against the sentinel-only history. -/
theorem fresh_run_applies_all_scripts_witness :
    consecIds 0 [fix1, fix2] ∧
    (∀ s ∈ [fix1, fix2], s.filename ≠ sentinel.filename) ∧
    (∀ s ∈ [fix1, fix2], (envAllOk.scriptResult s.data).isSuccess = true) ∧
    (∀ s ∈ [fix1, fix2], envAllOk.insertOk s.filename = true) ∧
    sentinel.id = 0 ∧
    (startMigration envAllOk true [fix1, fix2]
        { entries := [sentinel], nextId := 1 } =
      { db := { entries := sentinel :: mkRecords 1 [fix1, fix2],
                nextId := 1 + (([fix1, fix2].length : Nat) : Int) },
        trace := [fix1, fix2].map evOf, err := none } ∧
      (sentinel :: mkRecords 1 [fix1, fix2]).length =
        [fix1, fix2].length + 1) := by
  have h1 : consecIds 0 [fix1, fix2] := by
    refine ⟨rfl, rfl, trivial⟩
  have h2 : ∀ s ∈ [fix1, fix2], s.filename ≠ sentinel.filename := by decide
  have h3 : ∀ s ∈ [fix1, fix2],
      (envAllOk.scriptResult s.data).isSuccess = true := by decide
  have h4 : ∀ s ∈ [fix1, fix2], envAllOk.insertOk s.filename = true := by
    decide
  exact ⟨h1, h2, h3, h4, rfl,
    fresh_run_applies_all_scripts envAllOk [fix1, fix2] sentinel 1
      h1 h2 h3 h4 rfl⟩

/-- C3: when the ascending-by-id sequence of discovered scripts contains a
consecutive pair whose ids differ by more than one, the run raises the
SequenceGap error naming the offending filename (one of the discovered
filenames, the first at which the walk breaks) and aborts before executing
any script, leaving the persisted records exactly as they were. -/
theorem run_aborts_on_sequence_gap (env : Env) (raw : List MigrationItem)
    (db : DbState) (pre post : List MigrationItem) (a b : MigrationItem)
    (d : Int)
    (hsorted : sortBy scriptLe raw = pre ++ a :: b :: post)
    (hsub : jsSub b.id a.id = some d) (hd : 1 < d) :
    ∃ f, f ∈ (pre ++ a :: b :: post).map (fun s => s.filename) ∧
      startMigration env true raw db =
        { db, trace := [], err := some (seqGapMsg f) } := by
  have hgap : jsNeOne (jsSub b.id a.id) = true := by
    rw [hsub]
    exact bne_iff_ne.mpr (by omega)
  obtain ⟨f, hf, hcheck⟩ := checkSeqFrom_break pre none a b post hgap
  refine ⟨f, hf, ?_⟩
  rw [startMigration]
  have hdisc : getMigrationsScripts raw = .error (seqGapMsg f) := by
    rw [getMigrationsScripts]
    simp only [hsorted, hcheck]
  simp [hdisc]

/-- C3 witness: ids 1, 2, 4 abort the run against the fresh history. -/
theorem run_aborts_on_sequence_gap_witness :
    sortBy scriptLe [fix1, fix2, fix4] = [fix1] ++ fix2 :: fix4 :: [] ∧
    jsSub fix4.id fix2.id = some 2 ∧ (1 : Int) < 2 ∧
    (∃ f, f ∈ ([fix1] ++ fix2 :: fix4 :: []).map (fun s => s.filename) ∧
      startMigration envAllOk true [fix1, fix2, fix4] freshDb =
        { db := freshDb, trace := [], err := some (seqGapMsg f) }) := by
  refine ⟨rfl, rfl, by norm_num, ?_⟩
  exact run_aborts_on_sequence_gap envAllOk [fix1, fix2, fix4] freshDb
    [fix1] [] fix2 fix4 2 rfl rfl (by norm_num)

/-- C8: re-running against the history produced by a completed run — every
discovered script already recorded under its filename with a matching
non-null fingerprint — changes nothing: no script is executed and the
persisted records are returned unchanged in count and content. -/
theorem rerun_is_noop (env : Env) (raw scripts : List MigrationItem)
    (db : DbState)
    (hdisc : getMigrationsScripts raw = .ok scripts)
    (hne : db.entries ≠ [])
    (hmatch : ∀ s ∈ scripts, ∃ e,
      (getPersistedMigrations db).find?
        (fun x => x.filename == s.filename) = some e ∧
      e.hash = some s.hash) :
    startMigration env true raw db = { db, trace := [], err := none } := by
  rw [startMigration]
  simp only [Bool.not_true, Bool.false_eq_true, if_false, hdisc]
  cases scripts with
  | nil => simp
  | cons s rest =>
    have hsnap_ne : getPersistedMigrations db ≠ [] := by
      intro hnil
      apply hne
      have hlen := length_sortBy entryLe db.entries
      rw [show sortBy entryLe db.entries = getPersistedMigrations db
        from rfl, hnil] at hlen
      exact List.length_eq_zero.mp hlen.symm
    obtain ⟨last, hlast⟩ := getLast?_of_ne_nil hsnap_ne
    simp only [List.isEmpty_cons, Bool.false_eq_true, if_false,
      doMigration, hlast]
    exact doMigrationLoop_all_matched env (getPersistedMigrations db)
      (s :: rest) (some last.id) db [] hmatch

/-- C8 witness: the completed-run history of `fix1` and `fix2`. -/
theorem rerun_is_noop_witness :
    getMigrationsScripts [fix1, fix2] = .ok [fix1, fix2] ∧
    doneDb.entries ≠ [] ∧
    (∀ s ∈ [fix1, fix2], ∃ e,
      (getPersistedMigrations doneDb).find?
        (fun x => x.filename == s.filename) = some e ∧
      e.hash = some s.hash) ∧
    startMigration envAllOk true [fix1, fix2] doneDb =
      { db := doneDb, trace := [], err := none } := by
  have hdisc : getMigrationsScripts [fix1, fix2] = .ok [fix1, fix2] := rfl
  have hne : doneDb.entries ≠ [] := by simp [doneDb]
  have hmatch : ∀ s ∈ [fix1, fix2], ∃ e,
      (getPersistedMigrations doneDb).find?
        (fun x => x.filename == s.filename) = some e ∧
      e.hash = some s.hash := by
    intro s hs
    rcases List.mem_cons.mp hs with h | hs2
    · subst h
      exact ⟨rec1, rfl, rfl⟩
    · rcases List.mem_cons.mp hs2 with h | h3
      · subst h
        exact ⟨rec2, rfl, rfl⟩
      · exact absurd h3 (List.not_mem_nil s)
  exact ⟨hdisc, hne, hmatch,
    rerun_is_noop envAllOk [fix1, fix2] [fix1, fix2] doneDb hdisc hne hmatch⟩

end PgMigrations
